import Mathlib

/-!
Shallow embedding of the research-agent workflow (state.py, agents.py, main.py).

The LangGraph `AgentState` is a record; each node returns a partial update
(`Update`), merged by the channel rules of `state.py`: `research_data` and
`logs` are `Annotated[List, operator.add]` (concatenate); every other field
is last-value-wins (overwrite).  A node written as `{**state, ...}` in the
source mentions every key of the state, so its update carries every field,
including the current `research_data` list (which the add-channel then
appends again).  External capabilities (the LLM producer, the Tavily search
provider, the Supabase store) are opaque: they are supplied as an `Oracle`,
indexed by the step counter so any sequence of external responses is covered.
-/

namespace ResearchAgent

/-- `SearchQuery` from state.py. -/
structure SearchQuery where
  query : String
  rationale : String
deriving DecidableEq, Repr

/-- One Tavily result dict as read by `researcher_node`: it accesses
`result.get('content', '')` and `result.get('url', '')`, so each key may be
absent. -/
structure SearchResult where
  content : Option String
  url : Option String
deriving DecidableEq, Repr

/-- One entry of `research_data`: `{"source": url, "content": content,
"query": q.query}` built in `researcher_node`. -/
structure ResearchItem where
  source : String
  content : String
  query : String
deriving DecidableEq, Repr

/-- `Feedback` from state.py. -/
structure Feedback where
  score : Int
  critique : String
  hallucination_check : Bool
deriving DecidableEq, Repr

/-- Shape of the `content` field of a stored memory row, as inspected by
`check_memory_node`: either a mapping (Python dict, modelled as an
association list) or plain text. -/
inductive PyContent where
  | dict : List (String × String) → PyContent
  | str : String → PyContent
deriving DecidableEq, Repr

/-- A row returned by `tools.check_memory`; its `content` key may be absent. -/
structure MemoryEntry where
  content : Option PyContent
deriving DecidableEq, Repr

/-- `AgentState` from state.py. -/
structure AgentState where
  topic : String
  plan : List SearchQuery
  research_data : List ResearchItem
  draft : String
  critique_count : Nat
  critique_score : Int
  critique_feedback : Option String
  final_report : Option String
  memory_hit : Bool
  logs : List String
  current_query_index : Nat
deriving DecidableEq, Repr

/-- A node's returned dict: for each state key, `some v` when the key is
present in the returned dict (with value `v`) and `none` when absent. -/
structure Update where
  topic : Option String
  plan : Option (List SearchQuery)
  research_data : Option (List ResearchItem)
  draft : Option String
  critique_count : Option Nat
  critique_score : Option Int
  critique_feedback : Option (Option String)
  final_report : Option (Option String)
  memory_hit : Option Bool
  logs : Option (List String)
  current_query_index : Option Nat
deriving DecidableEq, Repr

/-- The LangGraph merge of a node's returned dict into the state:
`research_data` and `logs` are add-channels (concatenate), everything else
is overwrite-if-present. -/
def merge (s : AgentState) (u : Update) : AgentState where
  topic := u.topic.getD s.topic
  plan := u.plan.getD s.plan
  research_data := s.research_data ++ u.research_data.getD []
  draft := u.draft.getD s.draft
  critique_count := u.critique_count.getD s.critique_count
  critique_score := u.critique_score.getD s.critique_score
  critique_feedback := u.critique_feedback.getD s.critique_feedback
  final_report := u.final_report.getD s.final_report
  memory_hit := u.memory_hit.getD s.memory_hit
  logs := s.logs ++ u.logs.getD []
  current_query_index := u.current_query_index.getD s.current_query_index

/-- The Python spread `{**state, ...}`: an update mentioning every key with
its current value.  Callers override the keys they write explicitly. -/
def spread (s : AgentState) : Update where
  topic := some s.topic
  plan := some s.plan
  research_data := some s.research_data
  draft := some s.draft
  critique_count := some s.critique_count
  critique_score := some s.critique_score
  critique_feedback := some s.critique_feedback
  final_report := some s.final_report
  memory_hit := some s.memory_hit
  logs := some s.logs
  current_query_index := some s.current_query_index

/-- A returned dict with no keys at all (used by partial returns). -/
def emptyUpdate : Update where
  topic := none
  plan := none
  research_data := none
  draft := none
  critique_count := none
  critique_score := none
  critique_feedback := none
  final_report := none
  memory_hit := none
  logs := none
  current_query_index := none

/-- Python `dict.get(k)` on the modelled mapping. -/
def dictGet (kvs : List (String × String)) (k : String) : Option String :=
  kvs.lookup k

/-- The value `check_memory_node` stores into `final_report` on a hit:
`existing_data.get('content', {}).get('report', 'No report content found.')
if isinstance(existing_data.get('content'), dict) else
existing_data.get('content')`. -/
def cachedReport (e : MemoryEntry) : Option String :=
  match e.content with
  | some (PyContent.dict kvs) => some ((dictGet kvs "report").getD "No report content found.")
  | some (PyContent.str t) => some t
  | none => none

/-- `check_memory_node` from agents.py; `mem` is what `tools.check_memory`
returned (`none` for a falsy result). -/
def check_memory_node (mem : Option MemoryEntry) (s : AgentState) : Update :=
  match mem with
  | some e =>
      { spread s with
          memory_hit := some true
          final_report := some (cachedReport e)
          logs := some ["--- Memory Hit! Returning cached report. ---"] }
  | none =>
      { spread s with
          memory_hit := some false
          logs := some ["Checking Memory for: " ++ s.topic,
                        "--- No Memory Found. Proceeding to Plan. ---"] }

/-- `planner_node` from agents.py; `queries` is `plan.queries` as returned by
the structured-output LLM call. -/
def planner_node (queries : List SearchQuery) (s : AgentState) : Update :=
  { spread s with
      plan := some queries
      research_data := some []
      logs := some ["--- Planning Research ---",
                    "Generated " ++ toString queries.length ++ " search queries."]
      current_query_index := some 0 }

/-- One appended item: `{"source": url, "content": content, "query": q.query}`
with the `.get(..., '')` defaults. -/
def resultToItem (q : SearchQuery) (r : SearchResult) : ResearchItem where
  source := r.url.getD ""
  content := r.content.getD ""
  query := q.query

/-- `researcher_node` from agents.py; `results` is what `tools.search_tavily`
returned for the current query. -/
def researcher_node (results : List SearchResult) (s : AgentState) : Update :=
  if h : s.current_query_index < s.plan.length then
    let q := s.plan.get ⟨s.current_query_index, h⟩
    { emptyUpdate with
        research_data := some ((results.take 2).map (resultToItem q))
        logs := some ["--- Researching Query " ++ toString (s.current_query_index + 1)
                        ++ "/" ++ toString s.plan.length ++ ": " ++ q.query ++ " ---"]
        current_query_index := some (s.current_query_index + 1) }
  else
    { emptyUpdate with logs := some ["All queries completed."] }

/-- `writer_node` from agents.py; `draftText` is `draft.content` from the LLM. -/
def writer_node (draftText : String) (s : AgentState) : Update :=
  { spread s with
      draft := some draftText
      logs := some ["--- Writing Draft ---", "Draft generated."] }

/-- `critique_node` from agents.py; `fb` is the structured `Feedback`. -/
def critique_node (fb : Feedback) (s : AgentState) : Update :=
  { spread s with
      critique_score := some fb.score
      critique_feedback := some (some fb.critique)
      critique_count := some (s.critique_count + 1)
      logs := some ["--- Critiquing Draft ---",
                    "Critique Score: " ++ toString fb.score ++ "/100"]
      current_query_index := some 0 }

/-- `save_memory_node` from agents.py. -/
def save_memory_node (s : AgentState) : Update :=
  { spread s with
      final_report := some (some s.draft)
      logs := some ["--- Saving to Memory ---", "Report saved to database."] }

/-- The six graph nodes of `build_graph` in main.py. -/
inductive Node where
  | check_memory
  | planner
  | researcher
  | writer
  | critique
  | save_memory
deriving DecidableEq, Repr

/-- A graph position: a node, or `END`. -/
inductive Vertex where
  | node : Node → Vertex
  | terminal : Vertex
deriving DecidableEq, Repr

/-- `check_memory_condition` from main.py (`"end"` iff true). -/
def check_memory_condition (s : AgentState) : Bool :=
  s.memory_hit

/-- `research_condition` from main.py (`"continue"` iff true). -/
def research_condition (s : AgentState) : Bool :=
  decide (s.current_query_index < s.plan.length)

/-- `critique_condition` from main.py (`"good"` iff true):
`score > 70 or count > 3`. -/
def critique_condition (s : AgentState) : Bool :=
  decide (70 < s.critique_score) || decide (3 < s.critique_count)

/-- The edges of `build_graph`, evaluated on the post-merge state, as
LangGraph evaluates conditional edges after the node's writes are applied. -/
def nextVertex : Node → AgentState → Vertex
  | Node.check_memory, s =>
      if check_memory_condition s then Vertex.terminal else Vertex.node Node.planner
  | Node.planner, _ => Vertex.node Node.researcher
  | Node.researcher, s =>
      if research_condition s then Vertex.node Node.researcher else Vertex.node Node.writer
  | Node.writer, _ => Vertex.node Node.critique
  | Node.critique, s =>
      if critique_condition s then Vertex.node Node.save_memory else Vertex.node Node.researcher
  | Node.save_memory, _ => Vertex.terminal

/-- External capability responses for one run.  `memory` is the store lookup;
`plan` is the planner LLM's query list; `search`, `draft` and `feedback` are
indexed by the step counter at which the node runs, so every possible
sequence of responses is represented. -/
structure Oracle where
  memory : Option MemoryEntry
  plan : List SearchQuery
  search : Nat → List SearchResult
  draft : Nat → String
  feedback : Nat → Feedback

/-- Run one node at step counter `t`. -/
def runNode (o : Oracle) (t : Nat) : Node → AgentState → Update
  | Node.check_memory, s => check_memory_node o.memory s
  | Node.planner, s => planner_node o.plan s
  | Node.researcher, s => researcher_node (o.search t) s
  | Node.writer, s => writer_node (o.draft t) s
  | Node.critique, s => critique_node (o.feedback t) s
  | Node.save_memory, s => save_memory_node s

/-- A machine configuration: current graph position, accumulated state, and
the number of node invocations so far. -/
structure Config where
  vertex : Vertex
  state : AgentState
  time : Nat
deriving DecidableEq, Repr

/-- One superstep: run the current node, merge its update, follow the edge.
`END` is absorbing. -/
def step (o : Oracle) (c : Config) : Config :=
  match c.vertex with
  | Vertex.terminal => c
  | Vertex.node n =>
      let s := merge c.state (runNode o c.time n c.state)
      { vertex := nextVertex n s, state := s, time := c.time + 1 }

/-- The `initial_state` dict built in `run_cli` (main.py) and in server.py. -/
def initialState (topic : String) : AgentState where
  topic := topic
  plan := []
  research_data := []
  draft := ""
  critique_count := 0
  critique_score := 0
  critique_feedback := none
  final_report := some ""
  memory_hit := false
  logs := []
  current_query_index := 0

/-- Entry configuration: `set_entry_point("check_memory")`. -/
def initConfig (topic : String) : Config where
  vertex := Vertex.node Node.check_memory
  state := initialState topic
  time := 0

/-- Iterate the superstep. -/
def iter (o : Oracle) : Nat → Config → Config
  | 0, c => c
  | k + 1, c => iter o k (step o c)

/-- The configuration after `k` supersteps of a run on `topic`. -/
def run (o : Oracle) (topic : String) (k : Nat) : Config :=
  iter o k (initConfig topic)

/-! Concrete capability responses used to exercise the machine. -/

/-- A one-query plan. -/
def q1 : SearchQuery where
  query := "q1"
  rationale := "r1"

/-- A run with a cache miss, a one-query plan, and a passing first critique. -/
def oGood : Oracle where
  memory := none
  plan := [q1]
  search := fun _ => [{ content := some "c", url := some "u" }]
  draft := fun _ => "d"
  feedback := fun _ => { score := 90, critique := "ok", hallucination_check := false }

/-- A run with a cache miss and a planner that returns zero queries. -/
def oEmpty : Oracle where
  memory := none
  plan := []
  search := fun _ => []
  draft := fun _ => "d"
  feedback := fun _ => { score := 90, critique := "ok", hallucination_check := false }

/-- A stored row whose content mapping has a `report` entry. -/
def entryHit : MemoryEntry where
  content := some (PyContent.dict [("report", "R")])

/-- A run that hits the memory cache. -/
def oHit : Oracle where
  memory := some entryHit
  plan := []
  search := fun _ => []
  draft := fun _ => "d"
  feedback := fun _ => { score := 90, critique := "ok", hallucination_check := false }

/-- A state with one gathered item, entering the writer. -/
def sDup : AgentState :=
  { initialState "T" with
      research_data := [{ source := "s", content := "c", query := "q" }] }

/-- A state sitting exactly at the score boundary after one critique. -/
def s70 : AgentState :=
  { initialState "T" with critique_score := 70, critique_count := 1 }


/-! Termination ranking.  `tailSteps L j` bounds the work left after the
current critique pass when `critique_count = j` and the plan has length `L`;
`gatherRem` bounds the remaining gather-loop iterations. -/

/-- Steps remaining after the next critique evaluation, counted from a state
with `critique_count = j` and plan length `L`. -/
def tailSteps (L j : Nat) : Nat :=
  (3 - j) * (max L 1 + 2) + 1

/-- Remaining researcher invocations of the current gather phase. -/
def gatherRem (s : AgentState) : Nat :=
  if s.current_query_index < s.plan.length then s.plan.length - s.current_query_index else 1

/-- A ranking function on configurations that strictly decreases at every
superstep of a non-terminal configuration. -/
def rank (o : Oracle) (c : Config) : Nat :=
  match c.vertex with
  | Vertex.terminal => 0
  | Vertex.node Node.save_memory => 1
  | Vertex.node Node.critique =>
      1 + tailSteps c.state.plan.length c.state.critique_count
  | Vertex.node Node.writer =>
      2 + tailSteps c.state.plan.length c.state.critique_count
  | Vertex.node Node.researcher =>
      gatherRem c.state + 2 + tailSteps c.state.plan.length c.state.critique_count
  | Vertex.node Node.planner =>
      max o.plan.length 1 + 3 + tailSteps o.plan.length c.state.critique_count
  | Vertex.node Node.check_memory =>
      max o.plan.length 1 + 4 + tailSteps o.plan.length c.state.critique_count

/-- Position-indexed bound on `critique_count`: at most 3 before the
critique escape fires, at most 4 when `save_memory` is entered. -/
def countInv (c : Config) : Prop :=
  (c.vertex = Vertex.node Node.save_memory → c.state.critique_count ≤ 4) ∧
  (c.vertex = Vertex.node Node.check_memory → c.state.critique_count ≤ 3) ∧
  (c.vertex = Vertex.node Node.planner → c.state.critique_count ≤ 3) ∧
  (c.vertex = Vertex.node Node.researcher → c.state.critique_count ≤ 3) ∧
  (c.vertex = Vertex.node Node.writer → c.state.critique_count ≤ 3) ∧
  (c.vertex = Vertex.node Node.critique → c.state.critique_count ≤ 3)

/-- Position-indexed invariant for the gather loop: from the planner on the
plan equals the produced plan, and the researcher only runs with an
in-bounds cursor. -/
def planInv (o : Oracle) (c : Config) : Prop :=
  (c.vertex = Vertex.node Node.researcher →
      c.state.plan = o.plan ∧ c.state.current_query_index < c.state.plan.length) ∧
  (c.vertex = Vertex.node Node.writer → c.state.plan = o.plan) ∧
  (c.vertex = Vertex.node Node.critique → c.state.plan = o.plan)

/-- The `final_report` value changes across superstep `k` of a run. -/
def reportChanged (o : Oracle) (topic : String) (k : Nat) : Prop :=
  (run o topic (k + 1)).state.final_report ≠ (run o topic k).state.final_report

end ResearchAgent

namespace ResearchAgent

theorem iter_succ (o : Oracle) (k : Nat) (c : Config) :
    iter o (k + 1) c = iter o k (step o c) := rfl

theorem step_of_terminal (o : Oracle) (c : Config) (h : c.vertex = Vertex.terminal) :
    step o c = c := by
  simp [step, h]

theorem iter_of_terminal (o : Oracle) (k : Nat) (c : Config)
    (h : c.vertex = Vertex.terminal) : iter o k c = c := by
  induction k with
  | zero => rfl
  | succ k ih =>
    rw [iter_succ, step_of_terminal o c h]
    exact ih

theorem iter_add (o : Oracle) (a b : Nat) (c : Config) :
    iter o (a + b) c = iter o b (iter o a c) := by
  induction a generalizing c with
  | zero => simp [iter]
  | succ a ih =>
    have h : a + 1 + b = (a + b) + 1 := by omega
    rw [h]
    show iter o (a + b) (step o c) = iter o b (iter o (a + 1) c)
    rw [ih (step o c)]
    rfl

theorem iter_succ_right (o : Oracle) (k : Nat) (c : Config) :
    iter o (k + 1) c = step o (iter o k c) := by
  induction k generalizing c with
  | zero => rfl
  | succ k ih =>
    show iter o (k + 1) (step o c) = step o (iter o (k + 1) c)
    rw [ih (step o c)]
    rfl

theorem run_succ (o : Oracle) (topic : String) (k : Nat) :
    run o topic (k + 1) = step o (run o topic k) :=
  iter_succ_right o k (initConfig topic)

theorem iter_terminal_le (o : Oracle) {k m : Nat} (c : Config)
    (h : (iter o k c).vertex = Vertex.terminal) (hkm : k ≤ m) :
    (iter o m c).vertex = Vertex.terminal := by
  have hm : m = k + (m - k) := by omega
  rw [hm, iter_add, iter_of_terminal o (m - k) (iter o k c) h]
  exact h

theorem iter_invariant (o : Oracle) (P : Config → Prop)
    (hstep : ∀ c, P c → P (step o c)) :
    ∀ k c, P c → P (iter o k c) := by
  intro k
  induction k with
  | zero => intro c h; exact h
  | succ k ih => intro c h; exact ih (step o c) (hstep c h)

theorem rank_pos (o : Oracle) (c : Config) (h : c.vertex ≠ Vertex.terminal) :
    1 ≤ rank o c := by
  obtain ⟨v, s, t⟩ := c
  cases v with
  | terminal => exact absurd rfl h
  | node n => cases n <;> simp [rank, tailSteps] <;> omega

theorem rank_decreases (o : Oracle) (c : Config) (h : c.vertex ≠ Vertex.terminal) :
    rank o (step o c) < rank o c := by
  obtain ⟨v, s, t⟩ := c
  obtain ⟨top, pl, rd, dr, cc, cs, cf, fr, mh, lg, qi⟩ := s
  cases v with
  | terminal => exact absurd rfl h
  | node n =>
    cases n with
    | check_memory =>
      cases hm : o.memory with
      | none =>
        simp only [step, runNode, check_memory_node, hm, merge, spread, nextVertex,
          check_memory_condition, rank, tailSteps, Option.getD_some]
        simp only [Bool.false_eq_true, if_false, rank, tailSteps]
        omega
      | some e =>
        simp only [step, runNode, check_memory_node, hm, merge, spread, nextVertex,
          check_memory_condition, rank, tailSteps, Option.getD_some]
        simp only [if_true, rank, tailSteps]
        omega
    | planner =>
      simp only [step, runNode, planner_node, merge, spread, nextVertex,
        rank, Option.getD_some]
      simp only [rank, tailSteps, gatherRem]
      split_ifs <;> omega
    | researcher =>
      by_cases hq : qi < pl.length
      · simp only [step, runNode, researcher_node, hq, dif_pos, merge, emptyUpdate,
          nextVertex, research_condition, Option.getD_some, Option.getD_none, rank]
        simp only [rank, tailSteps, gatherRem]
        split_ifs <;> simp_all [rank, tailSteps, gatherRem] <;> omega
      · simp only [step, runNode, researcher_node, hq, dif_neg, merge, emptyUpdate,
          nextVertex, research_condition, Option.getD_some, Option.getD_none, rank]
        simp only [rank, tailSteps, gatherRem]
        split_ifs <;> simp_all [rank, tailSteps, gatherRem] <;> omega
    | writer =>
      simp only [step, runNode, writer_node, merge, spread, nextVertex, rank,
        Option.getD_some]
      simp only [rank, tailSteps]
      omega
    | critique =>
      simp only [step, runNode, critique_node, merge, spread, nextVertex,
        critique_condition, rank, Option.getD_some]
      split_ifs with hc
      · simp only [rank, tailSteps]
        omega
      · simp only [rank, tailSteps, gatherRem]
        have hcc : cc ≤ 2 := by
          by_contra hgt
          exact hc (by simp; omega)
        interval_cases cc <;> split_ifs <;> omega
    | save_memory =>
      simp only [step, runNode, save_memory_node, merge, spread, nextVertex, rank]
      omega

theorem iter_rank_aux (o : Oracle) (n : Nat) :
    ∀ c, rank o c ≤ n → (iter o (rank o c) c).vertex = Vertex.terminal := by
  induction n with
  | zero =>
    intro c hle
    by_cases ht : c.vertex = Vertex.terminal
    · rw [iter_of_terminal o _ c ht]
      exact ht
    · exact absurd (rank_pos o c ht) (by omega)
  | succ n ih =>
    intro c hle
    by_cases ht : c.vertex = Vertex.terminal
    · rw [iter_of_terminal o _ c ht]
      exact ht
    · have hd := rank_decreases o c ht
      have h1 := rank_pos o c ht
      obtain ⟨p, hp⟩ : ∃ p, rank o c = p + 1 := ⟨rank o c - 1, by omega⟩
      rw [hp, iter_succ]
      have hterm := ih (step o c) (by omega)
      exact iter_terminal_le o (step o c) hterm (by omega)

theorem iter_rank_terminal (o : Oracle) (c : Config) :
    (iter o (rank o c) c).vertex = Vertex.terminal :=
  iter_rank_aux o (rank o c) c le_rfl

theorem rank_initConfig (o : Oracle) (topic : String) :
    rank o (initConfig topic) = 4 * max o.plan.length 1 + 11 := by
  simp [rank, initConfig, initialState, tailSteps]
  omega

theorem count_effect (o : Oracle) (t : Nat) (n : Node) (s : AgentState) :
    (merge s (runNode o t n s)).critique_count =
      if n = Node.critique then s.critique_count + 1 else s.critique_count := by
  cases n with
  | check_memory =>
    cases hm : o.memory <;>
      simp [runNode, check_memory_node, hm, merge, spread]
  | planner => simp [runNode, planner_node, merge, spread]
  | researcher =>
    by_cases hq : s.current_query_index < s.plan.length <;>
      simp [runNode, researcher_node, hq, merge, emptyUpdate]
  | writer => simp [runNode, writer_node, merge, spread]
  | critique => simp [runNode, critique_node, merge, spread]
  | save_memory => simp [runNode, save_memory_node, merge, spread]

theorem countInv_step (o : Oracle) (c : Config) (hc : countInv c) :
    countInv (step o c) := by
  obtain ⟨v, s, t⟩ := c
  cases v with
  | terminal => exact hc
  | node n =>
    cases n with
    | check_memory =>
      have hcc : s.critique_count ≤ 3 := hc.2.1 rfl
      cases hm : o.memory with
      | none =>
        simp only [step, runNode, check_memory_node, hm, merge, spread, nextVertex,
          check_memory_condition, Option.getD_some]
        simp [countInv]
        omega
      | some e =>
        simp only [step, runNode, check_memory_node, hm, merge, spread, nextVertex,
          check_memory_condition, Option.getD_some]
        simp [countInv]
    | planner =>
      have hcc : s.critique_count ≤ 3 := hc.2.2.1 rfl
      simp only [step, runNode, planner_node, merge, spread, nextVertex, Option.getD_some]
      simp [countInv]
      omega
    | researcher =>
      have hcc : s.critique_count ≤ 3 := hc.2.2.2.1 rfl
      by_cases hq : s.current_query_index < s.plan.length
      · simp only [step, runNode, researcher_node, hq, dif_pos, merge, emptyUpdate,
          nextVertex, research_condition, Option.getD_some, Option.getD_none]
        split_ifs <;> simp [countInv] <;> omega
      · simp only [step, runNode, researcher_node, hq, dif_neg, merge, emptyUpdate,
          nextVertex, research_condition, Option.getD_some, Option.getD_none]
        split_ifs <;> simp [countInv] <;> omega
    | writer =>
      have hcc : s.critique_count ≤ 3 := hc.2.2.2.2.1 rfl
      simp only [step, runNode, writer_node, merge, spread, nextVertex, Option.getD_some]
      simp [countInv]
      omega
    | critique =>
      have hcc : s.critique_count ≤ 3 := hc.2.2.2.2.2 rfl
      simp only [step, runNode, critique_node, merge, spread, nextVertex,
        critique_condition, Option.getD_some]
      split_ifs with hcond
      · simp [countInv]
        omega
      · simp only [Bool.or_eq_true, decide_eq_true_eq, not_or, Bool.not_eq_true] at hcond
        simp [countInv]
        omega
    | save_memory =>
      simp only [step, runNode, save_memory_node, merge, spread, nextVertex]
      simp [countInv]

theorem countInv_init (topic : String) : countInv (initConfig topic) := by
  simp [countInv, initConfig, initialState]

theorem planInv_step (o : Oracle) (hne : o.plan ≠ []) (c : Config) (hc : planInv o c) :
    planInv o (step o c) := by
  have hlen : 0 < o.plan.length := List.length_pos.mpr hne
  obtain ⟨v, s, t⟩ := c
  cases v with
  | terminal => exact hc
  | node n =>
    cases n with
    | check_memory =>
      cases hm : o.memory with
      | none =>
        simp only [step, runNode, check_memory_node, hm, merge, spread, nextVertex,
          check_memory_condition, Option.getD_some]
        simp [planInv]
      | some e =>
        simp only [step, runNode, check_memory_node, hm, merge, spread, nextVertex,
          check_memory_condition, Option.getD_some]
        simp [planInv]
    | planner =>
      simp only [step, runNode, planner_node, merge, spread, nextVertex, Option.getD_some]
      simp [planInv]
      omega
    | researcher =>
      have hpl : s.plan = o.plan := (hc.1 rfl).1
      have hq : s.current_query_index < s.plan.length := (hc.1 rfl).2
      simp only [step, runNode, researcher_node, hq, dif_pos, merge, emptyUpdate,
        nextVertex, research_condition, Option.getD_some, Option.getD_none]
      split_ifs with hcont
      · simp only [decide_eq_true_eq] at hcont
        simp [planInv]
        exact ⟨hpl, hcont⟩
      · simp [planInv]
        exact hpl
    | writer =>
      have hpl : s.plan = o.plan := hc.2.1 rfl
      simp only [step, runNode, writer_node, merge, spread, nextVertex, Option.getD_some]
      simp [planInv]
      exact hpl
    | critique =>
      have hpl : s.plan = o.plan := hc.2.2 rfl
      simp only [step, runNode, critique_node, merge, spread, nextVertex,
        critique_condition, Option.getD_some]
      split_ifs with hcond
      · simp [planInv]
      · simp [planInv]
        refine ⟨hpl, ?_⟩
        rw [hpl]
        exact hlen
    | save_memory =>
      simp only [step, runNode, save_memory_node, merge, spread, nextVertex]
      simp [planInv]

theorem planInv_init (o : Oracle) (topic : String) : planInv o (initConfig topic) := by
  simp [planInv, initConfig]

theorem step_state (o : Oracle) (c : Config) (n : Node) (h : c.vertex = Vertex.node n) :
    (step o c).state = merge c.state (runNode o c.time n c.state) := by
  obtain ⟨v, s, t⟩ := c
  have h2 : v = Vertex.node n := h
  subst h2
  rfl

theorem step_vertex (o : Oracle) (c : Config) (n : Node) (h : c.vertex = Vertex.node n) :
    (step o c).vertex = nextVertex n (merge c.state (runNode o c.time n c.state)) := by
  obtain ⟨v, s, t⟩ := c
  have h2 : v = Vertex.node n := h
  subst h2
  rfl

theorem final_report_frame (o : Oracle) (t : Nat) (s : AgentState) (n : Node)
    (h1 : n ≠ Node.check_memory) (h2 : n ≠ Node.save_memory) :
    (merge s (runNode o t n s)).final_report = s.final_report := by
  cases n with
  | check_memory => exact absurd rfl h1
  | save_memory => exact absurd rfl h2
  | planner => simp [runNode, planner_node, merge, spread]
  | researcher =>
    by_cases hq : s.current_query_index < s.plan.length <;>
      simp [runNode, researcher_node, hq, merge, emptyUpdate]
  | writer => simp [runNode, writer_node, merge, spread]
  | critique => simp [runNode, critique_node, merge, spread]

theorem check_miss_frame (o : Oracle) (t : Nat) (s : AgentState) (hm : o.memory = none) :
    (merge s (runNode o t Node.check_memory s)).final_report = s.final_report := by
  simp [runNode, check_memory_node, hm, merge, spread]

theorem step_vertex_ne_check (o : Oracle) (c : Config) :
    (step o c).vertex ≠ Vertex.node Node.check_memory := by
  obtain ⟨v, s, t⟩ := c
  cases v with
  | terminal => simp [step]
  | node n =>
    cases n <;> simp only [step, nextVertex] <;> (try split_ifs) <;> simp

theorem run_stable (o : Oracle) (topic : String) {k m : Nat}
    (h : (run o topic k).vertex = Vertex.terminal) (hkm : k ≤ m) :
    run o topic m = run o topic k := by
  have hm : m = k + (m - k) := by omega
  rw [hm]
  show iter o (k + (m - k)) (initConfig topic) = _
  rw [iter_add]
  exact iter_of_terminal o _ _ h

theorem changed_vertex (o : Oracle) (topic : String) (k : Nat)
    (h : reportChanged o topic k) :
    (run o topic k).vertex = Vertex.node Node.check_memory ∨
    (run o topic k).vertex = Vertex.node Node.save_memory := by
  by_contra hcon
  push_neg at hcon
  obtain ⟨hnc, hns⟩ := hcon
  apply h
  rw [run_succ]
  cases hv : (run o topic k).vertex with
  | terminal => rw [step_of_terminal o _ hv]
  | node n =>
    have hn1 : n ≠ Node.check_memory := by rintro rfl; exact hnc hv
    have hn2 : n ≠ Node.save_memory := by rintro rfl; exact hns hv
    rw [step_state o _ n hv]
    exact final_report_frame o _ _ n hn1 hn2

theorem changed_then_terminal (o : Oracle) (topic : String) (k : Nat)
    (h : reportChanged o topic k) :
    (run o topic (k + 1)).vertex = Vertex.terminal := by
  rcases changed_vertex o topic k h with hv | hv
  · have hk0 : k = 0 := by
      cases k with
      | zero => rfl
      | succ j =>
        rw [run_succ] at hv
        exact absurd hv (step_vertex_ne_check o (run o topic j))
    subst hk0
    cases hm : o.memory with
    | none =>
      exfalso
      apply h
      rw [run_succ, step_state o _ Node.check_memory hv]
      exact check_miss_frame o _ _ hm
    | some e =>
      show (step o (initConfig topic)).vertex = Vertex.terminal
      simp [step, initConfig, runNode, check_memory_node, hm, merge, spread,
        nextVertex, check_memory_condition]
  · rw [run_succ, step_vertex o _ Node.save_memory hv]
    rfl

theorem changed_lt (o : Oracle) (topic : String) (k kk : Nat) (hlt : k < kk)
    (hk : reportChanged o topic k) : ¬ reportChanged o topic kk := by
  have ht := changed_then_terminal o topic k hk
  intro hkk
  apply hkk
  have h1 : run o topic kk = run o topic (k + 1) := run_stable o topic ht (by omega)
  have h2 : run o topic (kk + 1) = run o topic (k + 1) := run_stable o topic ht (by omega)
  rw [h1, h2]

theorem research_len_step (o : Oracle) (c : Config) :
    c.state.research_data.length ≤ (step o c).state.research_data.length := by
  cases hv : c.vertex with
  | terminal => rw [step_of_terminal o c hv]
  | node n =>
    rw [step_state o c n hv]
    simp [merge]

theorem run_len_mono_aux (o : Oracle) (topic : String) :
    ∀ d j, (run o topic j).state.research_data.length ≤
      (run o topic (j + d)).state.research_data.length := by
  intro d
  induction d with
  | zero => intro j; exact le_rfl
  | succ d ih =>
    intro j
    have h2 : run o topic (j + d + 1) = step o (run o topic (j + d)) :=
      run_succ o topic (j + d)
    calc (run o topic j).state.research_data.length
        ≤ (run o topic (j + d)).state.research_data.length := ih j
      _ ≤ (step o (run o topic (j + d))).state.research_data.length :=
          research_len_step o _
      _ = (run o topic (j + d + 1)).state.research_data.length := by rw [h2]

/-! Claim theorems. -/

/-- C1: after the critique step, the transition goes to `save_memory`
(persist) iff `critique_score > 70` or `critique_count > 3`, otherwise back
to `researcher` (gather); a score of exactly 70 with the retry budget left
goes back to gather. -/
theorem C1_critique_transition (s : AgentState) :
    (nextVertex Node.critique s = Vertex.node Node.save_memory ↔
      (70 < s.critique_score ∨ 3 < s.critique_count)) ∧
    (nextVertex Node.critique s = Vertex.node Node.researcher ↔
      ¬(70 < s.critique_score ∨ 3 < s.critique_count)) ∧
    (s.critique_score = 70 → s.critique_count ≤ 3 →
      nextVertex Node.critique s = Vertex.node Node.researcher) := by
  have hb : (critique_condition s = true) ↔
      (70 < s.critique_score ∨ 3 < s.critique_count) := by
    simp [critique_condition]
  simp only [nextVertex]
  split_ifs with hcond
  · rw [hb] at hcond
    refine ⟨iff_of_true rfl hcond, iff_of_false (by simp) (not_not_intro hcond), ?_⟩
    intro h70 hcnt
    rcases hcond with hs | hcg
    · rw [h70] at hs
      exact absurd hs (lt_irrefl 70)
    · exact absurd hcg (by omega)
  · rw [hb] at hcond
    exact ⟨iff_of_false (by simp) hcond, iff_of_true rfl hcond, fun _ _ => rfl⟩

/-- C1 witness: at score exactly 70 with one critique pass done, the
transition goes back to the researcher. -/
theorem C1_witness :
    s70.critique_score = 70 ∧ s70.critique_count ≤ 3 ∧
    nextVertex Node.critique s70 = Vertex.node Node.researcher :=
  ⟨rfl, by decide, (C1_critique_transition s70).2.2 rfl (by decide)⟩

/-- C2: from the documented zero-valued initial state, every run reaches the
terminal vertex within `4 * max (len plan) 1 + 11` supersteps, whatever the
external capabilities answer: the retry loop is cut by `critique_count > 3`
and each gather phase is bounded by the plan length. -/
theorem C2_run_terminates (o : Oracle) (topic : String) :
    (run o topic (4 * max o.plan.length 1 + 11)).vertex = Vertex.terminal := by
  have h := iter_rank_terminal o (initConfig topic)
  rw [rank_initConfig o topic] at h
  exact h

/-- C3: `critique_count` is incremented exactly once by the critique step
and written back unchanged by every other step, and whenever `save_memory`
(persist) is reached in a run it is at most 4. -/
theorem C3_critique_count (o : Oracle) (topic : String) :
    (∀ t n s, (merge s (runNode o t n s)).critique_count =
        if n = Node.critique then s.critique_count + 1 else s.critique_count) ∧
    (∀ k, (run o topic k).vertex = Vertex.node Node.save_memory →
        (run o topic k).state.critique_count ≤ 4) := by
  refine ⟨fun t n s => count_effect o t n s, fun k hk => ?_⟩
  have hinv := iter_invariant o countInv (countInv_step o) k (initConfig topic)
    (countInv_init topic)
  exact hinv.1 hk

/-- C3 witness: a concrete run reaching `save_memory` after one critique. -/
theorem C3_witness :
    (merge (initialState "T") (runNode oGood 0 Node.critique (initialState "T"))).critique_count
      = (if Node.critique = Node.critique then (initialState "T").critique_count + 1
          else (initialState "T").critique_count) ∧
    (run oGood "X" 5).state.critique_count ≤ 4 :=
  ⟨(C3_critique_count oGood "X").1 0 Node.critique (initialState "T"),
   (C3_critique_count oGood "X").2 5 (by decide)⟩

/-- C4 counterexample: when the producer returns zero queries, the planner
edge still leads to the researcher, which is invoked with
`current_query_index >= len(plan)` and takes the defensive no-op branch. -/
theorem C4_counterexample :
    (run oEmpty "X" 2).vertex = Vertex.node Node.researcher ∧
    ¬ ((run oEmpty "X" 2).state.current_query_index <
        (run oEmpty "X" 2).state.plan.length) ∧
    researcher_node (oEmpty.search 2) ((run oEmpty "X" 2).state) =
      { emptyUpdate with logs := some ["All queries completed."] } := by
  decide

/-- C4 amended: provided the produced plan is nonempty, the researcher
(gather) step is only ever invoked with `current_query_index < len(plan)`. -/
theorem C4_gather_in_bounds (o : Oracle) (topic : String) (hne : o.plan ≠ [])
    (k : Nat) (h : (run o topic k).vertex = Vertex.node Node.researcher) :
    (run o topic k).state.current_query_index < (run o topic k).state.plan.length := by
  have hinv := iter_invariant o (planInv o) (planInv_step o hne) k (initConfig topic)
    (planInv_init o topic)
  exact (hinv.1 h).2

/-- C4 witness: the first researcher invocation of a one-query run is in
bounds. -/
theorem C4_witness :
    oGood.plan ≠ [] ∧ (run oGood "X" 2).vertex = Vertex.node Node.researcher ∧
    (run oGood "X" 2).state.current_query_index < (run oGood "X" 2).state.plan.length :=
  ⟨by decide, by decide, C4_gather_in_bounds oGood "X" (by decide) 2 (by decide)⟩

/-- C5 counterexample: on a cache hit the `check_memory` (lookup) step, not
the persist step, changes `final_report`. -/
theorem C5_counterexample :
    (run oHit "X" 0).vertex = Vertex.node Node.check_memory ∧
    Node.check_memory ≠ Node.save_memory ∧
    (run oHit "X" 1).state.final_report ≠ (run oHit "X" 0).state.final_report ∧
    (run oHit "X" 1).state.final_report = some "R" := by
  decide

/-- C5 amended: `final_report` is changed by no step other than
`check_memory` (lookup, on a cache hit) and `save_memory` (persist), and in
any run its value changes at most once. -/
theorem C5_final_report_single_change (o : Oracle) (topic : String) :
    (∀ t s n, n ≠ Node.check_memory → n ≠ Node.save_memory →
        (merge s (runNode o t n s)).final_report = s.final_report) ∧
    (∀ k kk, reportChanged o topic k → reportChanged o topic kk → k = kk) := by
  refine ⟨fun t s n h1 h2 => final_report_frame o t s n h1 h2, fun k kk hk hkk => ?_⟩
  rcases lt_trichotomy k kk with hlt | heq | hgt
  · exact absurd hkk (changed_lt o topic k kk hlt hk)
  · exact heq
  · exact absurd hk (changed_lt o topic kk k hgt hkk)

/-- C5 witness: the writer step leaves `final_report` unchanged, and the one
change of a concrete full run happens at a single index. -/
theorem C5_witness :
    (merge (initialState "T") (runNode oGood 0 Node.writer (initialState "T"))).final_report
      = (initialState "T").final_report ∧ (5 : Nat) = 5 := by
  have hchg : reportChanged oGood "X" 5 := by
    show (run oGood "X" 6).state.final_report ≠ (run oGood "X" 5).state.final_report
    decide
  exact ⟨(C5_final_report_single_change oGood "X").1 0 (initialState "T") Node.writer
      (by decide) (by decide),
    (C5_final_report_single_change oGood "X").2 5 5 hchg hchg⟩

/-- C6 counterexample: with a zero-query plan the planner step returns
normally, the run enters the gather phase and still terminates by
persisting a report, instead of aborting. -/
theorem C6_counterexample :
    (run oEmpty "X" 1).vertex = Vertex.node Node.planner ∧
    (run oEmpty "X" 2).vertex = Vertex.node Node.researcher ∧
    (run oEmpty "X" 6).vertex = Vertex.terminal ∧
    (run oEmpty "X" 6).state.final_report = some "d" := by
  decide

/-- C6 amended: a zero-query plan is not an error: after the planner the
researcher is invoked once, takes the defensive no-op branch (returning
only a log line), and the run continues to the writer. -/
theorem C6_zero_queries_no_error (o : Oracle) (topic : String)
    (hm : o.memory = none) (hp : o.plan = []) :
    (run o topic 2).vertex = Vertex.node Node.researcher ∧
    (run o topic 2).state.plan = [] ∧
    researcher_node (o.search 2) ((run o topic 2).state) =
      { emptyUpdate with logs := some ["All queries completed."] } ∧
    (run o topic 3).vertex = Vertex.node Node.writer := by
  have hpl : (run o topic 2).state.plan = [] := by
    show (step o (step o (initConfig topic))).state.plan = []
    simp [step, initConfig, initialState, runNode, check_memory_node, planner_node,
      hm, hp, merge, spread, nextVertex, check_memory_condition]
  have hqi : (run o topic 2).state.current_query_index = 0 := by
    show (step o (step o (initConfig topic))).state.current_query_index = 0
    simp [step, initConfig, initialState, runNode, check_memory_node, planner_node,
      hm, hp, merge, spread, nextVertex, check_memory_condition]
  refine ⟨?_, hpl, ?_, ?_⟩
  · show (step o (step o (initConfig topic))).vertex = Vertex.node Node.researcher
    simp [step, initConfig, initialState, runNode, check_memory_node, planner_node,
      hm, hp, merge, spread, nextVertex, check_memory_condition, research_condition]
  · rw [researcher_node, hpl, hqi]
    simp
  · show (step o (step o (step o (initConfig topic)))).vertex = Vertex.node Node.writer
    simp [step, initConfig, initialState, runNode, check_memory_node, planner_node,
      researcher_node, hm, hp, merge, spread, emptyUpdate, nextVertex,
      check_memory_condition, research_condition]

/-- C6 witness: the zero-query behaviour on a concrete oracle. -/
theorem C6_witness :
    (run oEmpty "X" 2).vertex = Vertex.node Node.researcher ∧
    (run oEmpty "X" 2).state.plan = [] ∧
    researcher_node (oEmpty.search 2) ((run oEmpty "X" 2).state) =
      { emptyUpdate with logs := some ["All queries completed."] } ∧
    (run oEmpty "X" 3).vertex = Vertex.node Node.writer :=
  C6_zero_queries_no_error oEmpty "X" rfl rfl

/-- C7: the writer step does not leave `research_data` untouched: because it
returns the whole state and `research_data` is an add-channel, the merge
appends a second copy of the already-gathered items. -/
theorem C7_writer_appends_duplicate :
    (∀ s d, (merge s (writer_node d s)).research_data =
        s.research_data ++ s.research_data) ∧
    sDup.research_data ≠ [] ∧
    (merge sDup (writer_node "New draft" sDup)).research_data ≠ sDup.research_data := by
  refine ⟨?_, by decide, by decide⟩
  intro s d
  simp [merge, writer_node, spread]

/-- C8: the length of `research_data` is non-decreasing along every run. -/
theorem C8_research_data_monotone (o : Oracle) (topic : String) (k kk : Nat)
    (h : k ≤ kk) :
    (run o topic k).state.research_data.length ≤
      (run o topic kk).state.research_data.length := by
  have hkk : kk = k + (kk - k) := by omega
  rw [hkk]
  exact run_len_mono_aux o topic (kk - k) k

/-- C8 witness. -/
theorem C8_witness :
    (run oGood "X" 0).state.research_data.length ≤
      (run oGood "X" 5).state.research_data.length :=
  C8_research_data_monotone oGood "X" 0 5 (by decide)

/-- C9: when the store lookup hits, every configuration after the first
superstep is terminal, so no node other than `check_memory` is ever
invoked. -/
theorem C9_cache_hit_short_circuit (o : Oracle) (topic : String) (e : MemoryEntry)
    (hm : o.memory = some e) :
    (∀ k, 1 ≤ k → (run o topic k).vertex = Vertex.terminal) ∧
    (∀ k n, (run o topic k).vertex = Vertex.node n → n = Node.check_memory) := by
  have h1 : (run o topic 1).vertex = Vertex.terminal := by
    show (step o (initConfig topic)).vertex = Vertex.terminal
    simp [step, initConfig, runNode, check_memory_node, hm, merge, spread,
      nextVertex, check_memory_condition]
  constructor
  · intro k hk
    exact iter_terminal_le o (initConfig topic) h1 hk
  · intro k n hv
    cases k with
    | zero =>
      have h0 : Vertex.node Node.check_memory = Vertex.node n := hv
      exact (Vertex.node.inj h0).symm
    | succ j =>
      have ht : (run o topic (j + 1)).vertex = Vertex.terminal :=
        iter_terminal_le o (initConfig topic) h1 (by omega)
      rw [ht] at hv
      exact absurd hv (by simp)

/-- C9 witness: the cache-hit run is terminal from step 1 on. -/
theorem C9_witness :
    (run oHit "X" 5).vertex = Vertex.terminal ∧
    Node.check_memory = Node.check_memory :=
  ⟨(C9_cache_hit_short_circuit oHit "X" entryHit rfl).1 5 (by omega),
   (C9_cache_hit_short_circuit oHit "X" entryHit rfl).2 0 Node.check_memory (by decide)⟩

/-- C10: on a cache hit the stored content shape decides `final_report`:
a mapping yields its `report` entry, a mapping without one yields the
fallback text, non-mapping content is passed through; in each case the run
terminates right after the lookup. -/
theorem C10_cached_report_shapes (o : Oracle) (topic : String) (e : MemoryEntry)
    (hm : o.memory = some e) :
    (∀ kvs v, e.content = some (PyContent.dict kvs) → dictGet kvs "report" = some v →
        (run o topic 1).state.final_report = some v) ∧
    (∀ kvs, e.content = some (PyContent.dict kvs) → dictGet kvs "report" = none →
        (run o topic 1).state.final_report = some "No report content found.") ∧
    (∀ txt, e.content = some (PyContent.str txt) →
        (run o topic 1).state.final_report = some txt) ∧
    (run o topic 1).vertex = Vertex.terminal := by
  have hfr : (run o topic 1).state.final_report = cachedReport e := by
    show (step o (initConfig topic)).state.final_report = cachedReport e
    simp [step, initConfig, runNode, check_memory_node, hm, merge, spread]
  refine ⟨?_, ?_, ?_, ?_⟩
  · intro kvs v hc hl
    rw [hfr]
    simp [cachedReport, hc, hl]
  · intro kvs hc hl
    rw [hfr]
    simp [cachedReport, hc, hl]
  · intro txt hc
    rw [hfr]
    simp [cachedReport, hc]
  · show (step o (initConfig topic)).vertex = Vertex.terminal
    simp [step, initConfig, runNode, check_memory_node, hm, merge, spread,
      nextVertex, check_memory_condition]

/-- C10 witness: a stored mapping with a `report` entry is returned as the
final report and the run is terminal after the lookup. -/
theorem C10_witness :
    (run oHit "X" 1).state.final_report = some "R" ∧
    (run oHit "X" 1).vertex = Vertex.terminal :=
  ⟨(C10_cached_report_shapes oHit "X" entryHit rfl).1 [("report", "R")] "R" rfl
      (by decide),
   (C10_cached_report_shapes oHit "X" entryHit rfl).2.2.2⟩

end ResearchAgent
